import Mathlib

/-
Shallow embedding of the half-duplex single-wire driver (src/lib.rs).

Modelling conventions:
* A pin level sample is an `Option Bool`: `some true` = line high, `some false`
  = line low, `none` = the underlying `is_high`/`is_low` read failed
  (`Result::Err` in the source).  `pin.is_low()` is modelled as the negation
  of the sampled level.
* The owner's slot `pin : Option<I>` (src/lib.rs line 44) is modelled as a
  `Bool`: `true` = the line is held (necessarily in input capability, since
  the slot's type only stores the input pin), `false` = the slot is empty.
* `skip_phase(delay, n)` (lines 157-161) performs `n` delay-unit waits; in
  the write path it is recorded as a `wait n` event, in the read path it
  advances the sample clock by `n` time units.
* Output drives (`set_high`/`set_low`, whose failures the source ignores via
  `.ok()`) are recorded as trace events.
* The read loop's non-edge polls are modelled at a cadence of one poll per
  delay unit; the two mid-bit samples happen 3 and 6 units after the edge
  poll, exactly as `skip_phase(delay, 3)` twice dictates (lines 120-126).
-/

/-- Error enum (src/lib.rs lines 13-19): Busy, Unavailable, IO, NoResponse.
The IO variant is rendered `ioErr` here. -/
inductive Error where
  | busy
  | unavailable
  | ioErr
  | noResponse
deriving DecidableEq, Repr

deriving instance DecidableEq for Except

/-- Observable output actions of the write path: driving the line high or
low, and waiting `n` delay units (`skip_phase(delay, n)`). -/
inductive Ev where
  | driveHigh
  | driveLow
  | wait (n : Nat)
deriving DecidableEq, Repr

/-- True for a drive event, false for a wait. -/
def Ev.isDrive : Ev → Bool
  | .wait _ => false
  | _ => true

/-- One pulse-width-encoded bit (src/lib.rs lines 88-98): a 1 bit is
drive-high, wait 4, drive-low, wait 4; a 0 bit is drive-high, wait 2,
drive-low, wait 6. -/
def bitEvents (b : Bool) : List Ev :=
  if b then [.driveHigh, .wait 4, .driveLow, .wait 4]
  else [.driveHigh, .wait 2, .driveLow, .wait 6]

/-- The bit loop of `write` (src/lib.rs lines 86-101): `mask` starts at 0x80,
each iteration emits the bit selected by `data & mask` and shifts the mask
right; `k` counts the remaining iterations (8 at entry). -/
def writeLoop (data : Nat) : Nat → Nat → List Ev
  | _, 0 => []
  | mask, k + 1 => bitEvents (data &&& mask != 0) ++ writeLoop data (mask >>> 1) k

/-- `HalfDuplexWire::write` (src/lib.rs lines 62-106).  `slot` is whether the
line is held; `s1` and `s2` are the levels sampled by the two busy checks
(lines 68 and 75, `is_low()` = level is `false`); the second busy check
happens after a `skip_phase(delay, 4)`.  Returns (result, slot after the
call, emitted event trace).  On the success path the line is driven low,
held low 4 units (start condition), then the 8 bits of `data` are emitted
MSB-first, and the pin is converted back to input and restored. -/
def HalfDuplexWire.write (slot : Bool) (data : Nat) (s1 s2 : Option Bool) :
    Except Error Unit × Bool × List Ev :=
  if slot = false then (.error .unavailable, false, [])
  else
    match s1 with
    | none => (.error .ioErr, false, [])
    | some l1 =>
      if l1 = false then (.error .busy, true, [])
      else
        match s2 with
        | none => (.error .ioErr, false, [.wait 4])
        | some l2 =>
          if l2 = false then (.error .busy, true, [.wait 4])
          else (.ok (), true, .wait 4 :: .driveLow :: .wait 4 :: writeLoop data 128 8)

/-- The event trace of a successful `write data` (both busy checks see the
line high). -/
def writeEvents (data : Nat) : List Ev :=
  (HalfDuplexWire.write true data (some true) (some true)).2.2

/-- Level of the line at time `t` (in delay units) given an event trace:
drives switch the current level, `wait n` holds it for `n` units, and after
the trace is exhausted the line sits at `idle` (the released line is pulled
high by the peer/pull-up, which also supplies the terminator condition). -/
def levelAt : List Ev → Bool → Bool → Nat → Bool
  | [], idle, _, _ => idle
  | .driveHigh :: evs, idle, _, t => levelAt evs idle true t
  | .driveLow :: evs, idle, _, t => levelAt evs idle false t
  | .wait n :: evs, idle, cur, t =>
      if t < n then cur else levelAt evs idle cur (t - n)

/-- `EdgeDetector::new` (src/lib.rs lines 212-218): the tracked level is the
initial sample, defaulting to low when the read fails (`unwrap_or(false)`). -/
def EdgeDetector.init (sample : Option Bool) : Bool := sample.getD false

/-- `EdgeDetector::risig_edge` (src/lib.rs lines 220-232): given the tracked
level and the freshly polled sample, returns (result, new tracked level).
A failed read returns false and leaves the tracked level unchanged; an
unchanged level returns false; a changed level updates the tracked level and
returns the new level (true only for low-to-high). -/
def EdgeDetector.risig_edge (status : Bool) (sample : Option Bool) : Bool × Bool :=
  match sample with
  | none => (false, status)
  | some lv => if lv = status then (false, status) else (lv, lv)

/-- State of the read loop: the time of the next poll, the edge detector's
tracked level, and the accumulated byte. -/
structure RState where
  time : Nat
  status : Bool
  data : Nat
deriving DecidableEq, Repr

/-- Result of one read-loop iteration. -/
inductive StepRes where
  | cont (s : RState)
  | done (data : Nat) (t : Nat)
  | fail (t : Nat)
deriving DecidableEq, Repr

/-- One iteration of the `loop` in `HalfDuplexWire::read` (src/lib.rs lines
118-133) against the level function `σ` (indexed by time in delay units).
A non-edge poll continues one unit later.  On a rising edge the loop waits
3 units, samples `tmp`, waits 3 more units and samples again: a failed
sample aborts with IO; a high second sample is the terminator (`break`,
discarding `tmp`); otherwise the byte is shifted left (u8, i.e. mod 256)
and `tmp` is ORed in as the new low bit. -/
def readStep (σ : Nat → Option Bool) (s : RState) : StepRes :=
  let r := EdgeDetector.risig_edge s.status (σ s.time)
  if r.1 = false then .cont ⟨s.time + 1, r.2, s.data⟩
  else
    match σ (s.time + 3) with
    | none => .fail (s.time + 4)
    | some tmp =>
      match σ (s.time + 6) with
      | none => .fail (s.time + 7)
      | some true => .done s.data (s.time + 7)
      | some false => .cont ⟨s.time + 7, r.2, (s.data * 2 + cond tmp 1 0) % 256⟩

/-- Fuelled iteration of `readStep`; `none` means the loop is still spinning
after `fuel` iterations (the source loop has no bound of its own). -/
def readRun (σ : Nat → Option Bool) : Nat → RState → Option (Except Error Nat × Nat)
  | 0, _ => none
  | fuel + 1, s =>
    match readStep σ s with
    | .cont s' => readRun σ fuel s'
    | .done d t => some (.ok d, t)
    | .fail t => some (.error .ioErr, t)

/-- `HalfDuplexWire::read` (src/lib.rs lines 108-137).  Takes the line
(Unavailable if the slot is empty), builds an `EdgeDetector` (whose
construction samples the line at `t0`), and runs the loop from `t0 + 1`.
Returns (result, slot after, time cursor after); `none` = still spinning.
On success the pin is released back into the slot; on an IO failure the
`?` operator returns early and the slot stays empty. -/
def HalfDuplexWire.read (slot : Bool) (σ : Nat → Option Bool) (fuel : Nat) (t0 : Nat) :
    Option (Except Error Nat × Bool × Nat) :=
  if slot = false then some (.error .unavailable, false, t0)
  else
    match readRun σ fuel ⟨t0 + 1, EdgeDetector.init (σ t0), 0⟩ with
    | none => none
    | some (.ok d, t) => some (.ok d, true, t)
    | some (.error e, t) => some (.error e, false, t)

/-- `HalfDuplexWire::stream_request` (src/lib.rs lines 163-175).  `s` is the
level sampled by `is_high()` when the slot is non-empty.  Returns (result,
slot after, number of delay-unit waits performed).  High level: one wait
then NoResponse; low level: immediate Ok; failed read: immediate IO; empty
slot: one wait then Unavailable.  The slot is never modified. -/
def HalfDuplexWire.stream_request (slot : Bool) (s : Option Bool) :
    Except Error Unit × Bool × Nat :=
  if slot then
    match s with
    | none => (.error .ioErr, slot, 0)
    | some true => (.error .noResponse, slot, 1)
    | some false => (.ok (), slot, 0)
  else (.error .unavailable, slot, 1)

/-- `HalfDuplexWire::release` (src/lib.rs lines 177-184): consumes the owner
and yields the pin, or Unavailable when the slot is empty. -/
def HalfDuplexWire.release (slot : Bool) : Except Error Unit :=
  if slot then .ok () else .error .unavailable

/-- Outcome of `get`: `ok` carries the returned value (modelled as its byte
sequence, i.e. the first `size` bytes of the buffer reinterpreted in native
order), the slot, the time cursor, the final buffer, and the number of
`read` calls made; `err` likewise for a propagated error; `panicked` is the
source's out-of-bounds `buf[i]` index; `spin` means some `read` call ran
out of fuel. -/
inductive GetRes where
  | ok (val : List Nat) (slot : Bool) (t : Nat) (buf : List Nat) (reads : Nat)
  | err (e : Error) (slot : Bool) (t : Nat) (buf : List Nat) (reads : Nat)
  | panicked (reads : Nat)
  | spin
deriving DecidableEq, Repr

/-- The `for i in 0..size` loop of `HalfDuplexWire::get` (src/lib.rs lines
193-195): each iteration calls `read` (the `?` operator propagates its
error immediately) and stores the byte at `buf[i]` (Rust evaluates the
right-hand side first, so a failing read at an out-of-range index still
propagates the error; a successful one panics).  `i` is the next buffer
index, `rem` the remaining iteration count, `reads` the `read` calls so
far. -/
def getLoop (σ : Nat → Option Bool) (fuel : Nat) :
    Bool → Nat → List Nat → Nat → Nat → Nat → GetRes
  | slot, t, buf, i, 0, reads => .ok (buf.take i) slot t buf reads
  | slot, t, buf, i, rem + 1, reads =>
    match HalfDuplexWire.read slot σ fuel t with
    | none => .spin
    | some (.error e, slot', t') => .err e slot' t' buf (reads + 1)
    | some (.ok d, slot', t') =>
      if i < buf.length then
        getLoop σ fuel slot' t' (buf.set i d) (i + 1) rem (reads + 1)
      else .panicked (reads + 1)

/-- `HalfDuplexWire::get` (src/lib.rs lines 186-200): reads
`size_of::<U>()` bytes into an 8-byte zeroed buffer and reinterprets the
first `size` bytes as the target value (modelled as that byte sequence). -/
def HalfDuplexWire.get (slot : Bool) (σ : Nat → Option Bool) (fuel : Nat)
    (t0 : Nat) (size : Nat) : GetRes :=
  getLoop σ fuel slot t0 (List.replicate 8 0) 0 size 0

/-- True exactly when a `get` outcome is the Unavailable error. -/
def GetRes.isUnavailable : GetRes → Bool
  | .err .unavailable _ _ _ _ => true
  | _ => false

/-- C8: for every poll, the Edge Detector's rising-edge check returns true
exactly when the polled level differs from the tracked level and the new
level is high; every other poll returns false — repeated polls at a stable
level, high-to-low transitions (which still update the tracked level), and
failed reads (which leave the tracked level unchanged and do not propagate
the failure). -/
theorem C8_risig_edge_spec : ∀ (status : Bool) (sample : Option Bool),
    ((EdgeDetector.risig_edge status sample).1 = true ↔
      sample = some true ∧ status = false) ∧
    (sample = none → EdgeDetector.risig_edge status sample = (false, status)) ∧
    (sample = some status → EdgeDetector.risig_edge status sample = (false, status)) ∧
    (sample = some (!status) → EdgeDetector.risig_edge status sample = (!status, !status)) := by
  intro status sample
  rcases sample with _ | lv <;> rcases status <;> first | decide | (rcases lv <;> decide)

/-- Witness for C8 at a concrete poll: tracked level low, polled level high. -/
theorem C8_witness : (EdgeDetector.risig_edge false (some true)).1 = true :=
  (C8_risig_edge_spec false (some true)).1.mpr ⟨rfl, rfl⟩

/-- C4: on an owned line, `stream_request` succeeds iff the line reads low
(with no delay wait); a high read gives exactly one wait and NoResponse; an
unowned line gives exactly one wait and Unavailable; a failed read gives IO;
the slot is unchanged in every case. -/
theorem C4_stream_request_spec : ∀ (slot : Bool) (s : Option Bool),
    (HalfDuplexWire.stream_request slot s).2.1 = slot ∧
    (slot = true →
      ((HalfDuplexWire.stream_request true s).1 = .ok () ↔ s = some false) ∧
      (s = some false → HalfDuplexWire.stream_request true s = (.ok (), true, 0)) ∧
      (s = some true →
        HalfDuplexWire.stream_request true s = (.error .noResponse, true, 1)) ∧
      (s = none → HalfDuplexWire.stream_request true s = (.error .ioErr, true, 0))) ∧
    (slot = false →
      HalfDuplexWire.stream_request false s = (.error .unavailable, false, 1)) := by
  intro slot s
  rcases slot <;> rcases s with _ | lv <;> first | decide | (rcases lv <;> decide)

/-- Witness for C4: owned line reading high waits once and fails NoResponse. -/
theorem C4_witness :
    HalfDuplexWire.stream_request true (some true) = (.error .noResponse, true, 1) :=
  ((C4_stream_request_spec true (some true)).2.1 rfl).2.2.1 rfl

/-- Counterexample to C5 as stated: for a zero-sized target type
(`size_of::<U>() = 0`) the `for i in 0..size` loop of `get` never runs, so
`get` on an owner whose slot is empty returns Ok (of the empty byte
sequence), not Err(Unavailable). -/
theorem C5_zero_size_counterexample :
    GetRes.isUnavailable (HalfDuplexWire.get false (fun _ => none) 0 0 0) = false ∧
    HalfDuplexWire.get false (fun _ => none) 0 0 0
      = GetRes.ok [] false 0 (List.replicate 8 0) 0 := by
  constructor <;> rfl

/-- C5 (amended): on an owner whose line slot is empty, `write`, `read`,
`stream_request` and `release` return Unavailable, and so does `get` for
every target type of nonzero size (the first `read` call fails before any
buffer write). -/
theorem C5_unavailable_when_empty :
    ∀ (data : Nat) (s1 s2 s : Option Bool) (σ : Nat → Option Bool) (fuel t0 size : Nat),
    (HalfDuplexWire.write false data s1 s2) = (.error .unavailable, false, []) ∧
    HalfDuplexWire.read false σ fuel t0 = some (.error .unavailable, false, t0) ∧
    (HalfDuplexWire.stream_request false s) = (.error .unavailable, false, 1) ∧
    HalfDuplexWire.release false = .error .unavailable ∧
    (0 < size → HalfDuplexWire.get false σ fuel t0 size
      = GetRes.err .unavailable false t0 (List.replicate 8 0) 1) := by
  intro data s1 s2 s σ fuel t0 size
  refine ⟨rfl, rfl, rfl, rfl, fun hs => ?_⟩
  obtain ⟨k, rfl⟩ : ∃ k, size = k + 1 := ⟨size - 1, by omega⟩
  rfl

/-- Witness for C5 (amended) at size 1 with an empty slot. -/
theorem C5_witness :
    HalfDuplexWire.get false (fun _ => none) 0 0 1
      = GetRes.err .unavailable false 0 (List.replicate 8 0) 1 :=
  (C5_unavailable_when_empty 0 none none none (fun _ => none) 0 0 1).2.2.2.2 (by decide)

/-- C3: with the line held, `write` returns Busy exactly when the first
busy-check sample reads low or the first reads high and the second (taken
after a 4-unit wait) reads low; in the Busy case no output is driven and
the slot again holds the line (in input capability), so a subsequent
operation does not fail with Unavailable. -/
theorem C3_write_busy_iff : ∀ (data : Nat) (s1 s2 : Option Bool),
    ((HalfDuplexWire.write true data s1 s2).1 = .error .busy ↔
      s1 = some false ∨ (s1 = some true ∧ s2 = some false)) ∧
    ((HalfDuplexWire.write true data s1 s2).1 = .error .busy →
      (HalfDuplexWire.write true data s1 s2).2.1 = true ∧
      ((HalfDuplexWire.write true data s1 s2).2.2.any Ev.isDrive) = false) ∧
    ((HalfDuplexWire.write true data s1 s2).1 = .error .busy →
      ∀ s, (HalfDuplexWire.stream_request
        (HalfDuplexWire.write true data s1 s2).2.1 s).1 ≠ .error .unavailable) := by
  intro data s1 s2
  rcases s1 with _ | l1 <;> rcases s2 with _ | l2 <;>
    (try rcases l1) <;> (try rcases l2) <;>
    simp [HalfDuplexWire.write, HalfDuplexWire.stream_request, Ev.isDrive] <;>
    intro s <;> rcases s with _ | ls <;> (try rcases ls) <;> simp

/-- Witness for C3: first busy check low yields Busy with the line restored. -/
theorem C3_witness :
    (HalfDuplexWire.write true 7 (some false) (some true)).1 = .error .busy ∧
    (HalfDuplexWire.write true 7 (some false) (some true)).2.1 = true := by
  have h := C3_write_busy_iff 7 (some false) (some true)
  have hb := h.1.mpr (Or.inl rfl)
  exact ⟨hb, (h.2.1 hb).1⟩

/-- Counterexample to C7 as stated: a failed level read in `write`'s first
busy check returns Err(IO) with the slot left empty, yet the subsequent
operation `get` for a zero-sized target type (`size_of::<U>() = 0`) returns
Ok — not Err(Unavailable) — because its `for i in 0..size` loop never calls
`read`. -/
theorem C7_zero_size_after_io_counterexample :
    (HalfDuplexWire.write true 0 none none).1 = .error .ioErr ∧
    (HalfDuplexWire.write true 0 none none).2.1 = false ∧
    HalfDuplexWire.get false (fun _ => none) 0 0 0
      = GetRes.ok [] false 0 (List.replicate 8 0) 0 ∧
    GetRes.isUnavailable (HalfDuplexWire.get false (fun _ => none) 0 0 0) = false :=
  ⟨rfl, rfl, rfl, rfl⟩

/-- C7 (amended): an IO failure (failed level read) during `write`'s busy
checks or `read`'s post-edge sampling returns Err(IO) with the slot left
empty, after which every operation fails with Unavailable — `write`,
`read`, `stream_request`, `release`, and `get` for every target type of
nonzero size; the one exception is `get` for a zero-sized target type,
which makes no `read` call and returns Ok even on the empty slot. -/
theorem C7_io_failure_slot_lost :
    (∀ (data : Nat) (s1 s2 : Option Bool),
      (HalfDuplexWire.write true data s1 s2).1 = .error .ioErr →
      (HalfDuplexWire.write true data s1 s2).2.1 = false) ∧
    (∀ (σ : Nat → Option Bool) (fuel t0 : Nat) (res : Except Error Nat × Bool × Nat),
      HalfDuplexWire.read true σ fuel t0 = some res →
      res.1 = .error .ioErr → res.2.1 = false) ∧
    (∀ data : Nat,
      HalfDuplexWire.write true data none none = (.error .ioErr, false, []) ∧
      HalfDuplexWire.write true data (some true) none = (.error .ioErr, false, [.wait 4])) ∧
    (HalfDuplexWire.read true
        (fun t => if t = 0 then some false else if t = 1 then some true else none) 2 0
      = some (.error .ioErr, false, 5)) ∧
    (∀ (data : Nat) (s1 s2 s : Option Bool) (σ : Nat → Option Bool) (fuel t0 size : Nat),
      (HalfDuplexWire.write false data s1 s2).1 = .error .unavailable ∧
      HalfDuplexWire.read false σ fuel t0 = some (.error .unavailable, false, t0) ∧
      (HalfDuplexWire.stream_request false s).1 = .error .unavailable ∧
      HalfDuplexWire.release false = .error .unavailable ∧
      (0 < size → HalfDuplexWire.get false σ fuel t0 size
        = GetRes.err .unavailable false t0 (List.replicate 8 0) 1) ∧
      HalfDuplexWire.get false σ fuel t0 0
        = GetRes.ok [] false t0 (List.replicate 8 0) 0) := by
  refine ⟨?_, ?_, fun data => ⟨rfl, rfl⟩, rfl, ?_⟩
  · intro data s1 s2
    rcases s1 with _ | l1 <;> rcases s2 with _ | l2 <;>
      (try rcases l1) <;> (try rcases l2) <;>
      simp [HalfDuplexWire.write]
  · intro σ fuel t0 res hres h1
    rw [HalfDuplexWire.read] at hres
    simp only [if_neg (by simp : ¬ (true = false))] at hres
    rcases hrun : readRun σ fuel ⟨t0 + 1, EdgeDetector.init (σ t0), 0⟩ with _ | ⟨exr, t⟩
    · rw [hrun] at hres; exact absurd hres (by simp)
    · rcases exr with e | d
      · rw [hrun] at hres
        simp only [Option.some.injEq] at hres
        rw [← hres]
      · rw [hrun] at hres
        simp only [Option.some.injEq] at hres
        rw [← hres] at h1
        exact absurd h1 (by simp)
  · intro data s1 s2 s σ fuel t0 size
    refine ⟨rfl, rfl, rfl, rfl, fun hs => ?_, rfl⟩
    obtain ⟨k, rfl⟩ : ∃ k, size = k + 1 := ⟨size - 1, by omega⟩
    rfl

/-- Witness for C7 (amended): a failed first busy check aborts with IO and
an empty slot; the following write fails Unavailable and a following 2-byte
get fails Unavailable on its first read. -/
theorem C7_witness :
    HalfDuplexWire.write true 9 none none = (.error .ioErr, false, []) ∧
    (HalfDuplexWire.write false 9 none none).1 = .error .unavailable ∧
    HalfDuplexWire.get false (fun _ => none) 0 0 2
      = GetRes.err .unavailable false 0 (List.replicate 8 0) 1 :=
  ⟨(C7_io_failure_slot_lost.2.2.1 9).1,
    (C7_io_failure_slot_lost.2.2.2.2 9 none none none (fun _ => none) 0 0 2).1,
    (C7_io_failure_slot_lost.2.2.2.2 9 none none none (fun _ => none) 0 0 2).2.2.2.2.1
      (by decide)⟩

/-- A `read` that returns Ok restores the line to the slot. -/
theorem read_ok_slot : ∀ (slot : Bool) (σ : Nat → Option Bool) (fuel t0 : Nat)
    (d : Nat) (sl : Bool) (t' : Nat),
    HalfDuplexWire.read slot σ fuel t0 = some (.ok d, sl, t') → sl = true := by
  intro slot σ fuel t0 d sl t' h
  rcases slot
  · rw [HalfDuplexWire.read] at h; simp at h
  · rw [HalfDuplexWire.read] at h
    simp only [if_neg (by simp : ¬ (true = false))] at h
    rcases hrun : readRun σ fuel ⟨t0 + 1, EdgeDetector.init (σ t0), 0⟩ with _ | ⟨exr, t⟩
    · rw [hrun] at h; exact absurd h (by simp)
    · rcases exr with e | dd <;> rw [hrun] at h <;> simp only [Option.some.injEq] at h
      · exact absurd (congrArg Prod.fst h) (by simp)
      · exact (congrArg (fun p => p.2.1) h).symm

/-- A `getLoop` run that starts with the line held and ends Ok ends with the
line held. -/
theorem getLoop_ok_slot : ∀ (rem : Nat) (σ : Nat → Option Bool) (fuel t : Nat)
    (buf : List Nat) (i reads : Nat) (val : List Nat) (sl : Bool)
    (t' : Nat) (buf' : List Nat) (reads' : Nat),
    getLoop σ fuel true t buf i rem reads = .ok val sl t' buf' reads' → sl = true := by
  intro rem
  induction rem with
  | zero =>
    intro σ fuel t buf i reads val sl t' buf' reads' h
    rw [getLoop] at h
    exact (GetRes.ok.inj h).2.1.symm
  | succ rem ih =>
    intro σ fuel t buf i reads val sl t' buf' reads' h
    rw [getLoop] at h
    rcases hr : HalfDuplexWire.read true σ fuel t with _ | ⟨exr, slot', t''⟩
    · rw [hr] at h; exact absurd h (by simp)
    · rcases exr with e | d <;> rw [hr] at h
      · exact absurd h (by simp)
      · have hslot' : slot' = true := read_ok_slot true σ fuel t d slot' t'' hr
        subst hslot'
        simp only at h
        by_cases hi : i < buf.length
        · rw [if_pos hi] at h
          exact ih σ fuel t'' (buf.set i d) (i + 1) (reads + 1) val sl t' buf' reads' h
        · rw [if_neg hi] at h
          exact absurd h (by simp)

/-- C10: every successful `write`, `read`, or `get` on an owner holding the
line leaves the owner again holding the line in input capability (the slot
is the `Option` of the input-pin type, so non-empty means the input arm),
so successive operations compose without Unavailable errors. -/
theorem C10_success_restores_input :
    (∀ (data : Nat) (s1 s2 : Option Bool),
      (HalfDuplexWire.write true data s1 s2).1 = .ok () →
      (HalfDuplexWire.write true data s1 s2).2.1 = true) ∧
    (∀ (σ : Nat → Option Bool) (fuel t0 d : Nat) (sl : Bool) (t' : Nat),
      HalfDuplexWire.read true σ fuel t0 = some (.ok d, sl, t') → sl = true) ∧
    (∀ (σ : Nat → Option Bool) (fuel t0 size : Nat) (val : List Nat) (sl : Bool)
        (t' : Nat) (buf : List Nat) (reads : Nat),
      HalfDuplexWire.get true σ fuel t0 size = .ok val sl t' buf reads → sl = true) := by
  refine ⟨?_, fun σ fuel t0 d sl t' h => read_ok_slot true σ fuel t0 d sl t' h,
    fun σ fuel t0 size val sl t' buf reads h =>
      getLoop_ok_slot size σ fuel t0 (List.replicate 8 0) 0 0 val sl t' buf reads h⟩
  intro data s1 s2
  rcases s1 with _ | l1 <;> rcases s2 with _ | l2 <;>
    (try rcases l1) <;> (try rcases l2) <;> simp [HalfDuplexWire.write]

/-- Witness for C10: a one-edge read that hits the terminator immediately
returns Ok with the line back in the slot. -/
theorem C10_witness :
    ((HalfDuplexWire.read true (fun t => some (decide (t % 8 ≠ 0))) 1 0).getD
      (.error .busy, false, 0)).2.1 = true :=
  C10_success_restores_input.2.1 (fun t => some (decide (t % 8 ≠ 0))) 1 0 0
    (((HalfDuplexWire.read true (fun t => some (decide (t % 8 ≠ 0))) 1 0).getD
      (.error .busy, false, 0)).2.1) 8 rfl

/-- A `getLoop` run that ends Ok made exactly `rem` further `read` calls and
returned the first `i + rem` bytes of the final buffer. -/
theorem getLoop_ok_spec : ∀ (rem : Nat) (σ : Nat → Option Bool) (fuel : Nat)
    (slot : Bool) (t : Nat) (buf : List Nat) (i reads : Nat) (val : List Nat)
    (slot' : Bool) (t' : Nat) (buf' : List Nat) (reads' : Nat),
    getLoop σ fuel slot t buf i rem reads = .ok val slot' t' buf' reads' →
    reads' = reads + rem ∧ val = buf'.take (i + rem) := by
  intro rem
  induction rem with
  | zero =>
    intro σ fuel slot t buf i reads val slot' t' buf' reads' h
    rw [getLoop] at h
    obtain ⟨hv, _, _, hb, hr⟩ := GetRes.ok.inj h
    exact ⟨hr.symm, by rw [← hv, ← hb, Nat.add_zero]⟩
  | succ rem ih =>
    intro σ fuel slot t buf i reads val slot' t' buf' reads' h
    rw [getLoop] at h
    rcases hr : HalfDuplexWire.read slot σ fuel t with _ | ⟨exr, slot'', t''⟩
    · rw [hr] at h; exact absurd h (by simp)
    · rcases exr with e | d <;> rw [hr] at h
      · exact absurd h (by simp)
      · simp only at h
        by_cases hi : i < buf.length
        · rw [if_pos hi] at h
          obtain ⟨hreads, hval⟩ :=
            ih σ fuel slot'' t'' (buf.set i d) (i + 1) (reads + 1) val slot' t' buf' reads' h
          refine ⟨by omega, ?_⟩
          rw [hval]
          have : i + 1 + rem = i + (rem + 1) := by omega
          rw [this]
        · rw [if_neg hi] at h
          exact absurd h (by simp)

/-- C6: a successful `get` for a size-`n` target makes exactly `n` `read`
calls and returns the first `n` bytes of the buffer reinterpreted in native
byte order; each successful `read` in the loop stores its byte at the next
buffer index; the first failing `read` makes `get` return that same error
immediately, with no further `read` calls and the buffer untouched past the
already-written prefix. -/
theorem C6_get_reads_spec :
    (∀ (σ : Nat → Option Bool) (fuel : Nat) (slot : Bool) (t0 size : Nat)
        (val : List Nat) (slot' : Bool) (t' : Nat) (buf : List Nat) (reads : Nat),
      HalfDuplexWire.get slot σ fuel t0 size = .ok val slot' t' buf reads →
      reads = size ∧ val = buf.take size) ∧
    (∀ (σ : Nat → Option Bool) (fuel : Nat) (slot : Bool) (t : Nat) (buf : List Nat)
        (i rem reads d : Nat) (slot' : Bool) (t' : Nat),
      HalfDuplexWire.read slot σ fuel t = some (.ok d, slot', t') → i < buf.length →
      getLoop σ fuel slot t buf i (rem + 1) reads
        = getLoop σ fuel slot' t' (buf.set i d) (i + 1) rem (reads + 1)) ∧
    (∀ (σ : Nat → Option Bool) (fuel : Nat) (slot : Bool) (t : Nat) (buf : List Nat)
        (i rem reads : Nat) (e : Error) (slot' : Bool) (t' : Nat),
      HalfDuplexWire.read slot σ fuel t = some (.error e, slot', t') →
      getLoop σ fuel slot t buf i (rem + 1) reads = .err e slot' t' buf (reads + 1)) := by
  refine ⟨?_, ?_, ?_⟩
  · intro σ fuel slot t0 size val slot' t' buf reads h
    have := getLoop_ok_spec size σ fuel slot t0 (List.replicate 8 0) 0 0
      val slot' t' buf reads h
    simpa using this
  · intro σ fuel slot t buf i rem reads d slot' t' h hi
    rw [getLoop, h]
    simp only [if_pos hi]
  · intro σ fuel slot t buf i rem reads e slot' t' h
    rw [getLoop, h]

/-- Witness for C6: against a line that pulses once per 8 units, a 2-byte
`get` makes exactly 2 `read` calls and returns the buffer's first 2 bytes. -/
theorem C6_witness :
    HalfDuplexWire.get true (fun t => some (decide (t % 8 ≠ 0))) 1 0 2
      = GetRes.ok [0, 0] true 16 (List.replicate 8 0) 2 ∧
    (2 : Nat) = 2 ∧ ([0, 0] : List Nat) = (List.replicate 8 0).take 2 :=
  ⟨rfl, C6_get_reads_spec.1 (fun t => some (decide (t % 8 ≠ 0))) 1 true 0 2
    [0, 0] true 16 (List.replicate 8 0) 2 rfl⟩

/-- C9: the read loop exits successfully only via the terminator condition —
a rising edge (polled level high, tracked level low) whose second sample,
6 delay units after the edge, is still high; a non-terminating rising edge
instead shifts one bit into the byte (as a u8, mod 256) and continues; and
for every line behavior with no read failure and no terminator condition,
the loop never returns: there is no bit counter, iteration cap, or
timeout. -/
theorem C9_read_loop_termination :
    (∀ (σ : Nat → Option Bool) (s : RState) (d t : Nat),
      readStep σ s = .done d t →
      σ s.time = some true ∧ s.status = false ∧ σ (s.time + 6) = some true ∧
      d = s.data ∧ t = s.time + 7) ∧
    (∀ (σ : Nat → Option Bool) (fuel : Nat) (s : RState) (d t : Nat),
      readRun σ fuel s = some (.ok d, t) →
      ∃ s', readStep σ s' = .done d t) ∧
    (∀ (σ : Nat → Option Bool) (s : RState) (b : Bool),
      σ s.time = some true → s.status = false → σ (s.time + 3) = some b →
      σ (s.time + 6) = some false →
      readStep σ s = .cont ⟨s.time + 7, true, (s.data * 2 + cond b 1 0) % 256⟩) ∧
    (∀ σ : Nat → Option Bool,
      (∀ n, σ n ≠ none) → (∀ n, σ n = some true → σ (n + 6) ≠ some true) →
      (∀ (fuel : Nat) (s : RState), readRun σ fuel s = none) ∧
      (∀ fuel t0 : Nat, HalfDuplexWire.read true σ fuel t0 = none)) := by
  refine ⟨?_, ?_, ?_, ?_⟩
  · intro σ s d t h
    rcases h0 : σ s.time with _ | lv
    · simp [readStep, EdgeDetector.risig_edge, h0] at h
    · rcases hst : s.status <;> rcases lv
      · simp [readStep, EdgeDetector.risig_edge, h0, hst] at h
      · rcases h3 : σ (s.time + 3) with _ | b
        · simp [readStep, EdgeDetector.risig_edge, h0, hst, h3] at h
        · rcases h6 : σ (s.time + 6) with _ | c
          · simp [readStep, EdgeDetector.risig_edge, h0, hst, h3, h6] at h
          · rcases c
            · simp [readStep, EdgeDetector.risig_edge, h0, hst, h3, h6] at h
            · simp only [readStep, EdgeDetector.risig_edge, h0, hst, h3, h6] at h
              simp at h
              exact ⟨rfl, rfl, rfl, h.1.symm, h.2.symm⟩
      · simp [readStep, EdgeDetector.risig_edge, h0, hst] at h
      · simp [readStep, EdgeDetector.risig_edge, h0, hst] at h
  · intro σ fuel
    induction fuel with
    | zero => intro s d t h; exact absurd h (by simp [readRun])
    | succ fuel ih =>
      intro s d t h
      rw [readRun] at h
      rcases hstep : readStep σ s with s' | ⟨d', t'⟩ | t'
      · rw [hstep] at h; exact ih s' d t h
      · rw [hstep] at h
        simp only [Option.some.injEq, Prod.mk.injEq, Except.ok.injEq] at h
        exact ⟨s, by rw [hstep, h.1, h.2]⟩
      · rw [hstep] at h; exact absurd h (by simp)
  · intro σ s b h0 hst h3 h6
    simp [readStep, EdgeDetector.risig_edge, h0, hst, h3, h6]
  · intro σ h1 h2
    have hrun : ∀ (fuel : Nat) (s : RState), readRun σ fuel s = none := by
      intro fuel
      induction fuel with
      | zero => intro s; rfl
      | succ fuel ih =>
        intro s
        have hstep : ∃ s', readStep σ s = .cont s' := by
          rcases h0 : σ s.time with _ | lv
          · exact absurd h0 (h1 s.time)
          · rcases hst : s.status <;> rcases lv
            · exact ⟨⟨s.time + 1, false, s.data⟩,
                by simp [readStep, EdgeDetector.risig_edge, h0, hst]⟩
            · rcases h3 : σ (s.time + 3) with _ | b
              · exact absurd h3 (h1 _)
              · rcases h6 : σ (s.time + 6) with _ | c
                · exact absurd h6 (h1 _)
                · rcases c
                  · exact ⟨⟨s.time + 7, true, (s.data * 2 + cond b 1 0) % 256⟩,
                      by simp [readStep, EdgeDetector.risig_edge, h0, hst, h3, h6]⟩
                  · exact absurd h6 (h2 s.time (by rw [h0]))
            · exact ⟨⟨s.time + 1, false, s.data⟩,
                by simp [readStep, EdgeDetector.risig_edge, h0, hst]⟩
            · exact ⟨⟨s.time + 1, true, s.data⟩,
                by simp [readStep, EdgeDetector.risig_edge, h0, hst]⟩
        obtain ⟨s', hs'⟩ := hstep
        rw [readRun, hs']
        exact ih s'
    refine ⟨hrun, fun fuel t0 => ?_⟩
    rw [HalfDuplexWire.read]
    simp only [if_neg (by simp : ¬ (true = false))]
    rw [hrun fuel ⟨t0 + 1, EdgeDetector.init (σ t0), 0⟩]

/-- Witness for C9: a line pulsing high one unit in every eight (so every
edge's 6-units-later sample is low and no read ever fails) keeps the loop
spinning for any amount of fuel. -/
theorem C9_witness :
    readRun (fun n => some (n % 8 == 1)) 5 ⟨0, false, 0⟩ = none ∧
    HalfDuplexWire.read true (fun n => some (n % 8 == 1)) 5 0 = none := by
  have h := C9_read_loop_termination.2.2.2 (fun n => some (n % 8 == 1))
    (fun n h => Option.noConfusion h)
    (by
      intro n hn h6
      simp only [Option.some.injEq, beq_iff_eq] at hn h6
      omega)
  exact ⟨h.1 5 ⟨0, false, 0⟩, h.2 5 0⟩

set_option maxRecDepth 10000 in
/-- C2: a successful `write data` emits the inter-check wait, then drives
the line low and holds it 4 units (start condition), then the 8 bits of
`data` MSB-first — a 1 bit as drive-high, wait 4, drive-low, wait 4 and a
0 bit as drive-high, wait 2, drive-low, wait 6; for `write 0b10100000` the
per-bit high/low durations are [4,4],[2,6],[4,4],[2,6],[2,6],[2,6],[2,6],
[2,6]. -/
theorem C2_write_pulse_sequence : ∀ data : Nat, data < 256 →
    HalfDuplexWire.write true data (some true) (some true)
      = (.ok (), true, .wait 4 :: .driveLow :: .wait 4 :: writeLoop data 128 8) ∧
    writeLoop data 128 8
      = ((List.range 8).map fun i => bitEvents (data.testBit (7 - i))).flatten ∧
    bitEvents true = [.driveHigh, .wait 4, .driveLow, .wait 4] ∧
    bitEvents false = [.driveHigh, .wait 2, .driveLow, .wait 6] ∧
    writeEvents 0b10100000 = [.wait 4, .driveLow, .wait 4,
      .driveHigh, .wait 4, .driveLow, .wait 4,
      .driveHigh, .wait 2, .driveLow, .wait 6,
      .driveHigh, .wait 4, .driveLow, .wait 4,
      .driveHigh, .wait 2, .driveLow, .wait 6,
      .driveHigh, .wait 2, .driveLow, .wait 6,
      .driveHigh, .wait 2, .driveLow, .wait 6,
      .driveHigh, .wait 2, .driveLow, .wait 6,
      .driveHigh, .wait 2, .driveLow, .wait 6] := by decide

/-- Witness for C2 at the spec's concrete byte 0b10100000. -/
theorem C2_witness :
    writeEvents 0b10100000 = [.wait 4, .driveLow, .wait 4,
      .driveHigh, .wait 4, .driveLow, .wait 4,
      .driveHigh, .wait 2, .driveLow, .wait 6,
      .driveHigh, .wait 4, .driveLow, .wait 4,
      .driveHigh, .wait 2, .driveLow, .wait 6,
      .driveHigh, .wait 2, .driveLow, .wait 6,
      .driveHigh, .wait 2, .driveLow, .wait 6,
      .driveHigh, .wait 2, .driveLow, .wait 6,
      .driveHigh, .wait 2, .driveLow, .wait 6] :=
  (C2_write_pulse_sequence 0b10100000 (by decide)).2.2.2.2

/-- The round-trip property checked byte by byte: a successful `write b`
produces the trace `writeEvents b`, and decoding the waveform of that trace
(idling high after release) returns `Ok b` with the line restored. -/
def RoundTrip (b : Nat) : Prop :=
  HalfDuplexWire.write true b (some true) (some true) = (.ok (), true, writeEvents b) ∧
  HalfDuplexWire.read true (fun t => some (levelAt (writeEvents b) true true t)) 30 0
    = some (.ok b, true, 79)

instance : DecidablePred RoundTrip := fun b => by
  unfold RoundTrip; infer_instance

set_option maxRecDepth 100000 in
set_option maxHeartbeats 4000000 in
theorem roundTrip_chunk0 : ∀ b : Nat, b < 32 → RoundTrip b := by decide

set_option maxRecDepth 100000 in
set_option maxHeartbeats 4000000 in
theorem roundTrip_chunk1 : ∀ b : Nat, b < 32 → RoundTrip (32 + b) := by decide

set_option maxRecDepth 100000 in
set_option maxHeartbeats 4000000 in
theorem roundTrip_chunk2 : ∀ b : Nat, b < 32 → RoundTrip (64 + b) := by decide

set_option maxRecDepth 100000 in
set_option maxHeartbeats 4000000 in
theorem roundTrip_chunk3 : ∀ b : Nat, b < 32 → RoundTrip (96 + b) := by decide

set_option maxRecDepth 100000 in
set_option maxHeartbeats 4000000 in
theorem roundTrip_chunk4 : ∀ b : Nat, b < 32 → RoundTrip (128 + b) := by decide

set_option maxRecDepth 100000 in
set_option maxHeartbeats 4000000 in
theorem roundTrip_chunk5 : ∀ b : Nat, b < 32 → RoundTrip (160 + b) := by decide

set_option maxRecDepth 100000 in
set_option maxHeartbeats 4000000 in
theorem roundTrip_chunk6 : ∀ b : Nat, b < 32 → RoundTrip (192 + b) := by decide

set_option maxRecDepth 100000 in
set_option maxHeartbeats 4000000 in
theorem roundTrip_chunk7 : ∀ b : Nat, b < 32 → RoundTrip (224 + b) := by decide

/-- C1: for every byte, writing it onto an idle-high line (both busy checks
read high) and decoding the produced level/timing waveform with the read
path — the released line idling high supplies the terminator condition
after the 8 bits, with no propagation delay mismatch — returns Ok of the
same byte, with the line restored. -/
theorem C1_write_read_roundtrip : ∀ b : Nat, b < 256 →
    HalfDuplexWire.write true b (some true) (some true) = (.ok (), true, writeEvents b) ∧
    HalfDuplexWire.read true (fun t => some (levelAt (writeEvents b) true true t)) 30 0
      = some (.ok b, true, 79) := by
  intro b hb
  by_cases h0 : b < 32
  · exact roundTrip_chunk0 b h0
  by_cases h1 : b < 64
  · have hc := roundTrip_chunk1 (b - 32) (by omega)
    rwa [show 32 + (b - 32) = b by omega] at hc
  by_cases h2 : b < 96
  · have hc := roundTrip_chunk2 (b - 64) (by omega)
    rwa [show 64 + (b - 64) = b by omega] at hc
  by_cases h3 : b < 128
  · have hc := roundTrip_chunk3 (b - 96) (by omega)
    rwa [show 96 + (b - 96) = b by omega] at hc
  by_cases h4 : b < 160
  · have hc := roundTrip_chunk4 (b - 128) (by omega)
    rwa [show 128 + (b - 128) = b by omega] at hc
  by_cases h5 : b < 192
  · have hc := roundTrip_chunk5 (b - 160) (by omega)
    rwa [show 160 + (b - 160) = b by omega] at hc
  by_cases h6 : b < 224
  · have hc := roundTrip_chunk6 (b - 192) (by omega)
    rwa [show 192 + (b - 192) = b by omega] at hc
  · have hc := roundTrip_chunk7 (b - 224) (by omega)
    rwa [show 224 + (b - 224) = b by omega] at hc

/-- Witness for C1 at the byte 0xA5. -/
theorem C1_witness :
    HalfDuplexWire.read true (fun t => some (levelAt (writeEvents 165) true true t)) 30 0
      = some (.ok 165, true, 79) :=
  (C1_write_read_roundtrip 165 (by decide)).2
